import Mathlib

/-!
Verification of the GraphJin `serv/auth` middleware and the `core` remote
API resolver, shallowly embedded from the Go source.

Modelling conventions:
- `context.Context` values are embedded as association lists of the three
  identity keys used by the package (`core.UserIDProviderKey`,
  `core.UserIDKey`, `core.UserRoleKey`); `context.WithValue` prepends and
  `Context.Value` returns the most recently added binding, exactly as a
  chain of derived Go contexts behaves. A Go `nil` context is `Option.none`.
- Go `interface` values stored in a context are `GoValue`: a string or
  some other (non-string) value.
- An `http.Request` is embedded as its header list, its current context and
  the result of `websocket.IsWebSocketUpgrade`.
- Errors compared by identity in Go (`Err401`, `ErrNoAuthDefined`) are
  distinguished constructors; all other errors carry their message string.
- The per-request behaviour of the middleware closure built by `NewAuth`
  is `serveAuth`; calling a method on a Go nil interface panics, which the
  outcome type records as `Outcome.panicked`.
-/

namespace GraphJin

/-- The three context keys used by the auth package
(`core.UserIDProviderKey`, `core.UserIDKey`, `core.UserRoleKey`). -/
inductive CtxKey
  | userIDProvider
  | userID
  | userRole
deriving DecidableEq

/-- A Go `interface\x7b\x7d` value stored in a context: either a string or
some non-string value. -/
inductive GoValue
  | vStr (s : String)
  | vOther
deriving DecidableEq

/-- A non-nil Go context: bindings, most recent first. -/
abbrev Ctx := List (CtxKey × GoValue)

/-- `Context.Value`: the most recently added binding for a key, or Go nil
(`none`). -/
def ctxValue (c : Ctx) (k : CtxKey) : Option GoValue :=
  match c with
  | [] => none
  | (k', v) :: rest => if k' = k then some v else ctxValue rest k

/-- `context.WithValue`: derive a context with one more binding. -/
def ctxWithValue (c : Ctx) (k : CtxKey) (v : GoValue) : Ctx :=
  (k, v) :: c

/-- An `http.Request`: its headers, its context, and whether
`websocket.IsWebSocketUpgrade` holds for it. -/
structure Request where
  headers : List (String × String)
  ctx : Ctx
  isWSUpgrade : Bool
deriving DecidableEq

/-- `r.Header.Get(name)`: first value for the header, `""` when absent. -/
def headerGet (r : Request) (name : String) : String :=
  match r.headers.find? (fun p => p.1 = name) with
  | some p => p.2
  | none => ""

/-- The `Header` sub-configuration of `Auth` (fields `Name`, `Value`,
`Exists`). -/
structure HeaderConf where
  Name : String
  Value : String
  Exists : Bool
deriving DecidableEq

/-- The `Auth` configuration struct, restricted to the fields the embedded
functions read (`Development`, `Name`, `Type`, `Header`); the `Rails` and
`JWT` sub-configurations are consumed only by the opaque capability
constructors, which are parameters of the embedding. The Go field `Type`
is spelled `Type'` because `Type` is reserved in Lean. -/
structure Auth where
  Development : Bool
  Name : String
  Type' : String
  Header : HeaderConf
deriving DecidableEq

/-- `Options` for `NewAuth`. -/
structure Options where
  AuthFailBlock : Bool
deriving DecidableEq

/-- A per-request auth error: the sentinel `Err401` (compared by identity
in Go) or any other error with its message. -/
inductive AuthError
  | Err401
  | other (msg : String)
deriving DecidableEq

/-- A configuration error from handler construction: the sentinel
`ErrNoAuthDefined` or an ordinary error with its message. -/
inductive ConfError
  | ErrNoAuthDefined
  | errMsg (msg : String)
deriving DecidableEq

/-- `err.Error()` for a `ConfError`. -/
def ConfError.message : ConfError → String
  | ConfError.ErrNoAuthDefined => "no auth defined"
  | ConfError.errMsg s => s

/-- `HandlerFunc`: the result of running a strategy on a request — a
possibly-nil context and a possibly-nil error. (The `http.ResponseWriter`
argument is unused by every strategy in the source.) -/
abbrev HandlerFn := Request → Option Ctx × Option AuthError

/-- The context built by the `SimpleHandler` closure: the request context
extended with each of the three identity headers that is non-empty. -/
def simpleCtx (r : Request) : Ctx :=
  let c := r.ctx
  let c := if headerGet r "X-User-ID-Provider" ≠ "" then
    ctxWithValue c CtxKey.userIDProvider (GoValue.vStr (headerGet r "X-User-ID-Provider")) else c
  let c := if headerGet r "X-User-ID" ≠ "" then
    ctxWithValue c CtxKey.userID (GoValue.vStr (headerGet r "X-User-ID")) else c
  if headerGet r "X-User-Role" ≠ "" then
    ctxWithValue c CtxKey.userRole (GoValue.vStr (headerGet r "X-User-Role")) else c

/-- The closure returned by `SimpleHandler`: always `(ctx, nil)`. -/
def simpleAuthFn (r : Request) : Option Ctx × Option AuthError :=
  (some (simpleCtx r), none)

/-- `SimpleHandler`: never fails to construct. -/
def SimpleHandler (_ac : Auth) : Except ConfError HandlerFn :=
  Except.ok simpleAuthFn

/-- The closure returned by `HeaderHandler`: pass/fail on one header,
never producing a context. -/
def headerAuthCheck (hdr : HeaderConf) (r : Request) : Option Ctx × Option AuthError :=
  let value := headerGet r hdr.Name
  let fo1 : Bool := if hdr.Exists then decide (value = "") else decide (value ≠ hdr.Value)
  if fo1 then (none, some AuthError.Err401) else (none, none)

/-- `HeaderHandler`: validates the header configuration, then returns the
per-request check. -/
def HeaderHandler (ac : Auth) : Except ConfError HandlerFn :=
  let hdr := ac.Header
  if hdr.Name = "" then
    Except.error (ConfError.errMsg ("auth \x27" ++ ac.Name ++ "\x27: no header.name defined"))
  else if hdr.Exists = false ∧ hdr.Value = "" then
    Except.error (ConfError.errMsg ("auth \x27" ++ ac.Name ++ "\x27: no header.value defined"))
  else
    Except.ok (headerAuthCheck hdr)

/-- `IsAuth` on a non-nil context: `c.Value(core.UserIDKey) != nil`. -/
def IsAuth (c : Ctx) : Bool :=
  (ctxValue c CtxKey.userID).isSome

/-- `UserID`: the raw `core.UserIDKey` attribute (`none` is Go nil). -/
def UserID (c : Ctx) : Option GoValue :=
  ctxValue c CtxKey.userID

/-- Base-10 digit-string parse used by `strconv.Atoi`: all characters must
be ASCII digits and at least one must be present. -/
def parseDigits (cs : List Char) : Option Nat :=
  if cs = [] then none
  else if cs.all Char.isDigit then
    some (cs.foldl (fun a c => a * 10 + (c.toNat - 48)) 0)
  else none

/-- `strconv.Atoi` on a 64-bit platform: optional sign, one or more ASCII
digits, result within the `int64` range; `none` is any parse error. -/
def goAtoi (s : String) : Option Int :=
  match s.toList with
  | '+' :: rest =>
    match parseDigits rest with
    | some n => if n ≤ 9223372036854775807 then some (Int.ofNat n) else none
    | none => none
  | '-' :: rest =>
    match parseDigits rest with
    | some n => if n ≤ 9223372036854775808 then some (-(Int.ofNat n)) else none
    | none => none
  | cs =>
    match parseDigits cs with
    | some n => if n ≤ 9223372036854775807 then some (Int.ofNat n) else none
    | none => none

/-- `UserIDInt`: assert the attribute is a string, then `strconv.Atoi`,
with sentinel `-1` on any failure. -/
def UserIDInt (c : Ctx) : Int :=
  match UserID c with
  | some (GoValue.vStr v) =>
    match goAtoi v with
    | some n => n
    | none => -1
  | _ => -1

/-- The error wrapping at the end of `NewAuthHandlerFunc`:
`fmt.Errorf("%s: %s", ac.Type, err.Error())` applied to a failed
constructor result. -/
def wrapErr (t : String) : Except ConfError HandlerFn → Except ConfError HandlerFn
  | Except.ok h => Except.ok h
  | Except.error e => Except.error (ConfError.errMsg (t ++ ": " ++ e.message))

/-- `NewAuthHandlerFunc`, parameterised by the opaque `RailsHandler` and
`JwtHandler` capability constructors (their code is outside this
repository slice). -/
def NewAuthHandlerFunc (rails jwt : Auth → Except ConfError HandlerFn) (ac : Auth) :
    Except ConfError HandlerFn :=
  if ac.Development then SimpleHandler ac
  else if ac.Type' = "rails" then wrapErr ac.Type' (rails ac)
  else if ac.Type' = "jwt" then wrapErr ac.Type' (jwt ac)
  else if ac.Type' = "header" then wrapErr ac.Type' (HeaderHandler ac)
  else if ac.Type' = "" ∨ ac.Type' = "none" then Except.error ConfError.ErrNoAuthDefined
  else Except.error (ConfError.errMsg ("auth: unknown auth type: " ++ ac.Type'))

/-- The observable per-request outcome of the middleware closure. -/
inductive Outcome
  | forwarded (c : Option Ctx)
  | rejected (status : Nat) (body : String)
  | panicked
deriving DecidableEq

/-- The decision taken by the `NewAuth` closure after the websocket bypass
check, as a function of the strategy result: the `Err401` check, then
`opt.AuthFailBlock && !IsAuth(c)` (where `IsAuth` on a Go nil context is a
nil-interface method call, i.e. a panic), then forwarding with the
returned context attached when one was returned. -/
def authDecide (opt : Options) (res : Option Ctx × Option AuthError) : Outcome :=
  if res.2 = some AuthError.Err401 then Outcome.rejected 401 "401 unauthorized"
  else
    match opt.AuthFailBlock, res.1 with
    | true, none => Outcome.panicked
    | true, some c =>
      if IsAuth c then Outcome.forwarded (some c)
      else Outcome.rejected 401 "401 unauthorized"
    | false, c => Outcome.forwarded c

/-- One request through the middleware closure built by `NewAuth`:
the websocket bypass, then the strategy call and `authDecide`. -/
def serveAuth (wsAuthSupported : Bool) (opt : Options) (h : HandlerFn) (r : Request) : Outcome :=
  if wsAuthSupported && r.isWSUpgrade then Outcome.forwarded none
  else authDecide opt (h r)

/-- `NewAuth`: with a non-nil externally supplied handler the middleware
uses it and supports websocket bypass; otherwise the handler comes from
`NewAuthHandlerFunc` and construction fails on its error. The variadic
`hFn ...HandlerFunc` argument is a list of possibly-nil functions, of
which only a non-nil first element counts. -/
def NewAuth (rails jwt : Auth → Except ConfError HandlerFn) (ac : Auth)
    (opt : Options) (hFn : List (Option HandlerFn)) :
    Except ConfError (Request → Outcome) :=
  match hFn with
  | some f :: _ => Except.ok (serveAuth true opt f)
  | _ =>
    match NewAuthHandlerFunc rails jwt ac with
    | Except.ok h => Except.ok (serveAuth false opt h)
    | Except.error e => Except.error e

/-- One `Name`/`Value` pair of `remoteAPI.SetHeaders`. -/
structure RemoteHdrs where
  Name : String
  Value : String
deriving DecidableEq

/-- The `remoteAPI` struct (the commented-out `PassHeaders` use is dead
code and Debug logging does not affect the result). -/
structure RemoteAPI where
  URL : String
  Debug : Bool
  SetHeaders : List RemoteHdrs
deriving DecidableEq

/-- The part of `ResolverReq` read by `Resolve`. -/
structure ResolverReq where
  ID : String
deriving DecidableEq

/-- An HTTP response as `Resolve` observes it: the status code and the
result of `io.ReadAll` on the body. -/
structure HTTPResponse where
  StatusCode : Nat
  Body : Except String String

/-- The result of `client.Do`: a response, or a connection error. -/
inductive DoResult
  | ok (res : HTTPResponse)
  | connError (msg : String)

/-- Left-to-right, non-overlapping replacement of a non-empty pattern in a
character list, with a fuel argument for structural recursion; the fuel is
always at least the list length plus one, so it never runs out for a
non-empty pattern. -/
def replaceAllAux : Nat → List Char → List Char → List Char → List Char
  | 0, s, _, _ => s
  | _ + 1, [], _, _ => []
  | fuel + 1, c :: rest, pat, rep =>
    if pat.isPrefixOf (c :: rest) then
      rep ++ replaceAllAux fuel ((c :: rest).drop pat.length) pat rep
    else
      c :: replaceAllAux fuel rest pat rep

/-- `strings.ReplaceAll`: replace every non-overlapping occurrence of
`pat` in `s`, scanning left to right. -/
def replaceAll (s pat rep : String) : String :=
  String.mk (replaceAllAux (s.toList.length + 1) s.toList pat.toList rep.toList)

/-- `uri := strings.ReplaceAll(r.URL, "$id", rr.ID)`: the URL template
with every occurrence of the `$id` placeholder replaced. -/
def resolveURI (ra : RemoteAPI) (rr : ResolverReq) : String :=
  replaceAll ra.URL "$id" rr.ID

/-- Modelled from the spec: `jsn.ValidateBytes` (outside this repository
slice) is "requires ... a well-formed JSON body", represented as an
abstract predicate argument `validateJSON`; likewise the network is the
abstract oracle `net`, applied to the HTTP method, the URI and the headers
set on the request. The rest is the body of `remoteAPI.Resolve`: issue the
GET on the substituted URI, require status exactly 200, read the body and
validate it as JSON. -/
def Resolve (ra : RemoteAPI) (validateJSON : String → Bool)
    (net : String → String → List RemoteHdrs → DoResult) (rr : ResolverReq) :
    Except String String :=
  match net "GET" (resolveURI ra rr) ra.SetHeaders with
  | DoResult.connError e =>
    Except.error ("failed to connect to \x27" ++ resolveURI ra rr ++ "\x27: " ++ e)
  | DoResult.ok res =>
    if res.StatusCode ≠ 200 then
      Except.error ("server responded with a " ++ toString res.StatusCode)
    else
      match res.Body with
      | Except.error e => Except.error e
      | Except.ok b =>
        if validateJSON b then Except.ok b else Except.error "invalid json"

/-- Whether an `Except ConfError` result carries a handler. -/
def confResultOk {α : Type} : Except ConfError α → Bool
  | Except.ok _ => true
  | Except.error _ => false

/-- A placeholder capability constructor used to instantiate the `rails` /
`jwt` parameters in concrete evaluations on configurations that never
reach them. -/
def dummyCtor : Auth → Except ConfError HandlerFn :=
  fun _ => Except.error (ConfError.errMsg "unused")

/-- A header-auth configuration with both `Exists` set and a non-empty
`Value`. -/
def acBothSet : Auth :=
  ⟨false, "a", "header", ⟨"X-Token", "v", true⟩⟩

/-- A header-auth configuration requiring the `X-Api-Key` header to
exist. -/
def acHeaderExists : Auth :=
  ⟨false, "hx", "header", ⟨"X-Api-Key", "", true⟩⟩

/-- A configuration with no auth type set. -/
def acNone : Auth :=
  ⟨false, "", "", ⟨"", "", false⟩⟩

/-- A request carrying the `X-Api-Key` header. -/
def rApiKey : Request :=
  ⟨[("X-Api-Key", "k")], [], false⟩

/-- A plain request with no headers and an empty context. -/
def rPlain : Request :=
  ⟨[], [], false⟩

/-- A websocket-upgrade request. -/
def rUpgrade : Request :=
  ⟨[], [], true⟩

/-- Looking a key up just after binding it yields that binding. -/
theorem ctxValue_withValue_same (c : Ctx) (k : CtxKey) (v : GoValue) :
    ctxValue (ctxWithValue c k v) k = some v := by
  simp [ctxWithValue, ctxValue]

/-- Binding one key leaves lookups of other keys unchanged. -/
theorem ctxValue_withValue_ne (c : Ctx) (k k' : CtxKey) (v : GoValue) (h : k ≠ k') :
    ctxValue (ctxWithValue c k v) k' = ctxValue c k' := by
  simp [ctxWithValue, ctxValue, h]

/-- Claim C1 (code bug): the spec promises every outcome resolves to
forward or 401, but when the Header strategy succeeds (returning a nil
context and nil error) under `AuthFailBlock=true`, the middleware applies
`IsAuth` to the nil context — a method call on a nil Go interface — and
panics instead of forwarding or rejecting. -/
theorem header_success_failblock_panics :
    HeaderHandler acHeaderExists = Except.ok (headerAuthCheck acHeaderExists.Header)
    ∧ headerAuthCheck acHeaderExists.Header rApiKey = (none, none)
    ∧ serveAuth false ⟨true⟩ (headerAuthCheck acHeaderExists.Header) rApiKey = Outcome.panicked :=
  ⟨rfl, by decide, by decide⟩

/-- Claim C2 (code bug): for a non-sentinel strategy result with no
returned context and `AuthFailBlock=true` the claim requires a 401
rejection, but the middleware panics (`IsAuth` on a nil context); with
`AuthFailBlock=false`, or when the returned context carries a UserID, the
middleware behaves as the claim states. -/
theorem nonsentinel_nilctx_failblock_panics :
    serveAuth false ⟨true⟩ (fun _ => (none, some (AuthError.other "remote auth error"))) rPlain
      = Outcome.panicked
    ∧ serveAuth false ⟨false⟩ (fun _ => (none, some (AuthError.other "remote auth error"))) rPlain
      = Outcome.forwarded none
    ∧ serveAuth false ⟨true⟩
        (fun _ => ((some [(CtxKey.userID, GoValue.vStr "7")] : Option Ctx),
          some (AuthError.other "remote auth error"))) rPlain
      = Outcome.forwarded (some [(CtxKey.userID, GoValue.vStr "7")]) :=
  ⟨by decide, by decide, by decide⟩

/-- Claim C4 (confirmed): the Header strategy never produces a context;
with `Exists=true` it succeeds exactly when the named header value is
non-empty, otherwise exactly when the value equals the configured
`Value`; in every failing case the error is the `Err401` sentinel. -/
theorem headerAuthCheck_spec (hdr : HeaderConf) (r : Request) :
    (headerAuthCheck hdr r).1 = none
    ∧ (hdr.Exists = true →
        ((headerAuthCheck hdr r).2 = none ↔ headerGet r hdr.Name ≠ ""))
    ∧ (hdr.Exists = false →
        ((headerAuthCheck hdr r).2 = none ↔ headerGet r hdr.Name = hdr.Value))
    ∧ ((headerAuthCheck hdr r).2 = none ∨ (headerAuthCheck hdr r).2 = some AuthError.Err401) := by
  cases hEx : hdr.Exists
  · by_cases hv : headerGet r hdr.Name = hdr.Value <;>
      simp [headerAuthCheck, hEx, hv]
  · by_cases hv : headerGet r hdr.Name = "" <;>
      simp [headerAuthCheck, hEx, hv]

/-- Witness for C4: the `Exists=true` check passes on a request carrying
the header. -/
theorem headerAuthCheck_spec_witness :
    (headerAuthCheck ⟨"X-Api-Key", "", true⟩ rApiKey).2 = none :=
  ((headerAuthCheck_spec ⟨"X-Api-Key", "", true⟩ rApiKey).2.1 rfl).mpr (by decide)

/-- Claim C5 (confirmed): outside the websocket bypass, a strategy result
carrying the `Err401` sentinel makes the middleware answer exactly
`401` with body `401 unauthorized`; the downstream handler is not invoked
(the outcome is a rejection, not a forward). -/
theorem err401_rejected_spec (ws : Bool) (opt : Options) (h : HandlerFn) (r : Request)
    (hnb : ws = false ∨ r.isWSUpgrade = false)
    (h401 : (h r).2 = some AuthError.Err401) :
    serveAuth ws opt h r = Outcome.rejected 401 "401 unauthorized" := by
  have hbp : (ws && r.isWSUpgrade) = false := by
    rcases hnb with h1 | h1 <;> simp [h1]
  simp [serveAuth, hbp, authDecide, h401]

/-- Witness for C5: a strategy returning the sentinel yields the fixed 401
rejection. -/
theorem err401_rejected_spec_witness :
    serveAuth false ⟨true⟩ (fun _ => (none, some AuthError.Err401)) rPlain
      = Outcome.rejected 401 "401 unauthorized" :=
  err401_rejected_spec false ⟨true⟩ (fun _ => (none, some AuthError.Err401)) rPlain
    (Or.inl rfl) rfl

/-- Claim C6 (confirmed): with an externally supplied handler, `NewAuth`
marks websocket auth as supported and every upgrade request is forwarded
with its original context, for any strategy and either `AuthFailBlock`
value (the strategy is never consulted); without one, the handler comes
from `NewAuthHandlerFunc` and requests — upgrade ones included — take the
ordinary `authDecide` path. -/
theorem ws_upgrade_bypass_spec (rails jwt : Auth → Except ConfError HandlerFn) (ac : Auth)
    (opt opt' : Options) (f h h' : HandlerFn) (l : List (Option HandlerFn)) (r : Request)
    (hupg : r.isWSUpgrade = true) :
    NewAuth rails jwt ac opt (some f :: l) = Except.ok (serveAuth true opt f)
    ∧ serveAuth true opt h r = Outcome.forwarded none
    ∧ serveAuth true opt h r = serveAuth true opt' h' r
    ∧ NewAuth rails jwt ac opt [] =
        (match NewAuthHandlerFunc rails jwt ac with
         | Except.ok g => Except.ok (serveAuth false opt g)
         | Except.error e => Except.error e)
    ∧ serveAuth false opt h r = authDecide opt (h r) := by
  refine ⟨rfl, ?_, ?_, rfl, ?_⟩
  · simp [serveAuth, hupg]
  · simp [serveAuth, hupg]
  · simp [serveAuth]

/-- Witness for C6: an upgrade request is forwarded even when the strategy
would reject it and `AuthFailBlock` is on. -/
theorem ws_upgrade_bypass_spec_witness :
    serveAuth true ⟨true⟩ (fun _ => (none, some AuthError.Err401)) rUpgrade
      = Outcome.forwarded none :=
  (ws_upgrade_bypass_spec dummyCtor dummyCtor acNone ⟨true⟩ ⟨false⟩
    (fun _ => (none, some AuthError.Err401)) (fun _ => (none, some AuthError.Err401))
    (fun _ => (none, none)) [] rUpgrade rfl).2.1

/-- Claim C10 (confirmed): with a non-nil externally supplied handler,
`NewAuth` always succeeds, and the middleware it returns is independent of
the configuration and of the rails/jwt capability constructors — no
configuration validation happens. -/
theorem newAuth_external_skips_validation
    (rails rails' jwt jwt' : Auth → Except ConfError HandlerFn) (ac ac' : Auth)
    (opt : Options) (f : HandlerFn) (l l' : List (Option HandlerFn)) :
    NewAuth rails jwt ac opt (some f :: l) = Except.ok (serveAuth true opt f)
    ∧ NewAuth rails jwt ac opt (some f :: l) = NewAuth rails' jwt' ac' opt (some f :: l') :=
  ⟨rfl, rfl⟩

/-- Claim C7 (confirmed): the Simple (development) strategy never errors
and returns the request context extended with exactly the identity values
whose headers are non-empty: each of the three keys reads back the header
value when that header is present, and reads as it did in the original
context when absent; when all three headers are absent the original
context is returned unchanged. -/
theorem simpleHandler_spec (r : Request) :
    (simpleAuthFn r).2 = none
    ∧ (simpleAuthFn r).1 = some (simpleCtx r)
    ∧ ctxValue (simpleCtx r) CtxKey.userIDProvider =
        (if headerGet r "X-User-ID-Provider" = "" then ctxValue r.ctx CtxKey.userIDProvider
         else some (GoValue.vStr (headerGet r "X-User-ID-Provider")))
    ∧ ctxValue (simpleCtx r) CtxKey.userID =
        (if headerGet r "X-User-ID" = "" then ctxValue r.ctx CtxKey.userID
         else some (GoValue.vStr (headerGet r "X-User-ID")))
    ∧ ctxValue (simpleCtx r) CtxKey.userRole =
        (if headerGet r "X-User-Role" = "" then ctxValue r.ctx CtxKey.userRole
         else some (GoValue.vStr (headerGet r "X-User-Role")))
    ∧ (headerGet r "X-User-ID-Provider" = "" → headerGet r "X-User-ID" = "" →
        headerGet r "X-User-Role" = "" → simpleCtx r = r.ctx) := by
  refine ⟨rfl, rfl, ?_, ?_, ?_, ?_⟩ <;>
  · by_cases h1 : headerGet r "X-User-ID-Provider" = "" <;>
    by_cases h2 : headerGet r "X-User-ID" = "" <;>
    by_cases h3 : headerGet r "X-User-Role" = "" <;>
      simp [simpleCtx, ctxWithValue, ctxValue, h1, h2, h3]

/-- Witness for C7: a request with only the user-id header yields a
context whose sole binding is that user id, and a headerless request gets
its context back unchanged. -/
theorem simpleHandler_spec_witness :
    ctxValue (simpleCtx ⟨[("X-User-ID", "42")], [], false⟩) CtxKey.userID
      = some (GoValue.vStr "42")
    ∧ simpleCtx rPlain = rPlain.ctx := by
  constructor
  · have h := (simpleHandler_spec ⟨[("X-User-ID", "42")], [], false⟩).2.2.2.1
    simpa using h
  · exact (simpleHandler_spec rPlain).2.2.2.2.2 rfl rfl rfl

/-- Claim C8 (confirmed): `UserIDInt` returns the `strconv.Atoi` parse of
the UserID attribute when it is a string that parses, and the sentinel
`-1` when the attribute is absent, a non-parsing string (empty or
non-numeric), or not a string; it is a total function. -/
theorem userIDInt_spec :
    (∀ (c : Ctx) (s : String) (n : Int),
        UserID c = some (GoValue.vStr s) → goAtoi s = some n → UserIDInt c = n)
    ∧ (∀ c : Ctx, UserID c = none → UserIDInt c = -1)
    ∧ (∀ (c : Ctx) (s : String),
        UserID c = some (GoValue.vStr s) → goAtoi s = none → UserIDInt c = -1)
    ∧ (∀ c : Ctx, UserID c = some GoValue.vOther → UserIDInt c = -1)
    ∧ goAtoi "" = none ∧ goAtoi "abc" = none ∧ goAtoi "42" = some 42 := by
  refine ⟨?_, ?_, ?_, ?_, ?_, ?_, ?_⟩
  · intro c s n hu ha; simp [UserIDInt, hu, ha]
  · intro c hu; simp [UserIDInt, hu]
  · intro c s hu ha; simp [UserIDInt, hu, ha]
  · intro c hu; simp [UserIDInt, hu]
  · decide
  · decide
  · decide

/-- Witness for C8: a context holding UserID "42" parses to 42, and one
holding a non-string UserID yields the sentinel. -/
theorem userIDInt_spec_witness :
    UserIDInt [(CtxKey.userID, GoValue.vStr "42")] = 42
    ∧ UserIDInt [(CtxKey.userID, GoValue.vOther)] = -1 :=
  ⟨userIDInt_spec.1 [(CtxKey.userID, GoValue.vStr "42")] "42" 42 rfl (by decide),
   userIDInt_spec.2.2.2.1 [(CtxKey.userID, GoValue.vOther)] rfl⟩

/-- Claim C3 counterexample: with `Development=false`, `Type="header"`, a
non-empty `Header.Name`, `Exists=true` and a non-empty `Value` — so NOT
exactly one of \x7bExists=true, Value non-empty\x7d — the claim demands a
configuration error, but `NewAuthHandlerFunc` succeeds: the code only
rejects when both alternatives are missing. -/
theorem header_both_set_counterexample :
    acBothSet.Development = false
    ∧ acBothSet.Type' = "header"
    ∧ acBothSet.Header.Name ≠ ""
    ∧ ¬((acBothSet.Header.Exists = true ∧ acBothSet.Header.Value = "")
        ∨ (acBothSet.Header.Exists = false ∧ acBothSet.Header.Value ≠ ""))
    ∧ confResultOk (NewAuthHandlerFunc dummyCtor dummyCtor acBothSet) = true :=
  ⟨rfl, rfl, by decide, by decide, rfl⟩

/-- Claim C3 as amended (proved): for `Development=false`,
`NewAuthHandlerFunc` fails exactly when: `Type="header"` and
(`Header.Name` empty, or `Exists=false` and `Value` empty — i.e. at least
one of the two alternatives is required, both together are accepted); or
`Type` is empty or `none`; or `Type` is unknown; or the rails/jwt
capability constructor fails. The distinguished `ErrNoAuthDefined` is
returned exactly for the empty/`none` types. -/
theorem newAuthHandlerFunc_error_characterization
    (rails jwt : Auth → Except ConfError HandlerFn) (ac : Auth)
    (hdev : ac.Development = false) :
    (confResultOk (NewAuthHandlerFunc rails jwt ac) = false ↔
      ((ac.Type' = "header"
         ∧ (ac.Header.Name = "" ∨ (ac.Header.Exists = false ∧ ac.Header.Value = "")))
       ∨ ac.Type' = "" ∨ ac.Type' = "none"
       ∨ (ac.Type' ≠ "rails" ∧ ac.Type' ≠ "jwt" ∧ ac.Type' ≠ "header"
           ∧ ac.Type' ≠ "" ∧ ac.Type' ≠ "none")
       ∨ (ac.Type' = "rails" ∧ confResultOk (rails ac) = false)
       ∨ (ac.Type' = "jwt" ∧ confResultOk (jwt ac) = false)))
    ∧ (NewAuthHandlerFunc rails jwt ac = Except.error ConfError.ErrNoAuthDefined ↔
        (ac.Type' = "" ∨ ac.Type' = "none")) := by
  by_cases h1 : ac.Type' = "rails"
  · cases hra : rails ac <;>
      simp [NewAuthHandlerFunc, hdev, h1, wrapErr, hra, confResultOk]
  · by_cases h2 : ac.Type' = "jwt"
    · cases hra : jwt ac <;>
        simp [NewAuthHandlerFunc, hdev, h1, h2, wrapErr, hra, confResultOk]
    · by_cases h3 : ac.Type' = "header"
      · by_cases hn : ac.Header.Name = ""
        · simp [NewAuthHandlerFunc, hdev, h1, h2, h3, HeaderHandler, hn, wrapErr, confResultOk]
        · by_cases hv : ac.Header.Exists = false ∧ ac.Header.Value = ""
          · simp [NewAuthHandlerFunc, hdev, h1, h2, h3, HeaderHandler, hn, hv, wrapErr,
              confResultOk]
          · simp [NewAuthHandlerFunc, hdev, h1, h2, h3, HeaderHandler, hn, hv, wrapErr,
              confResultOk]
      · by_cases h4 : ac.Type' = ""
        · simp [NewAuthHandlerFunc, hdev, h1, h2, h3, h4, confResultOk]
        · by_cases h5 : ac.Type' = "none"
          · simp [NewAuthHandlerFunc, hdev, h1, h2, h3, h4, h5, confResultOk]
          · simp [NewAuthHandlerFunc, hdev, h1, h2, h3, h4, h5, confResultOk]

/-- Witness for amended C3: the empty auth type yields the distinguished
no-auth error. -/
theorem newAuthHandlerFunc_error_witness :
    NewAuthHandlerFunc dummyCtor dummyCtor acNone = Except.error ConfError.ErrNoAuthDefined :=
  ((newAuthHandlerFunc_error_characterization dummyCtor dummyCtor acNone rfl).2).mpr
    (Or.inl rfl)

/-- Claim C9 (confirmed): `Resolve` consults the network oracle only at a
GET on the URL template with every `$id` replaced by the request ID and
with the configured static headers, succeeds with the response body
exactly when the status is 200, the body read succeeds and the body
validates as JSON, and returns an error in every other case. -/
theorem resolve_spec (ra : RemoteAPI) (validateJSON : String → Bool)
    (net net' : String → String → List RemoteHdrs → DoResult) (rr : ResolverReq) :
    resolveURI ra rr = replaceAll ra.URL "$id" rr.ID
    ∧ (∀ b : String,
      Resolve ra validateJSON net rr = Except.ok b ↔
        (net "GET" (resolveURI ra rr) ra.SetHeaders = DoResult.ok ⟨200, Except.ok b⟩
         ∧ validateJSON b = true))
    ∧ (net "GET" (resolveURI ra rr) ra.SetHeaders
        = net' "GET" (resolveURI ra rr) ra.SetHeaders →
       Resolve ra validateJSON net rr = Resolve ra validateJSON net' rr) := by
  refine ⟨rfl, ?_, ?_⟩
  · intro b
    unfold Resolve
    cases hnet : net "GET" (resolveURI ra rr) ra.SetHeaders with
    | connError e => simp [hnet]
    | ok res =>
      obtain ⟨st, body⟩ := res
      by_cases hst : st = 200
      · subst hst
        cases body with
        | error e => simp [hnet]
        | ok bb =>
          by_cases hval : validateJSON bb = true
          · simp [hnet, hval]
            intro h
            subst h
            exact hval
          · simp [hnet, hval]
            intro h1
            subst h1
            simpa using hval
      · simp [hnet, hst]
  · intro heq
    unfold Resolve
    rw [heq]

/-- Witness for C9: a 200 response with a valid JSON body resolves to that
body, at the URI with `$id` substituted. -/
theorem resolve_spec_witness :
    Resolve ⟨"http://svc/item/$id", false, []⟩ (fun _ => true)
      (fun _ _ _ => DoResult.ok ⟨200, Except.ok "\x7b\x7d"⟩) ⟨"7"⟩
      = Except.ok "\x7b\x7d"
    ∧ resolveURI ⟨"http://svc/item/$id", false, []⟩ ⟨"7"⟩ = "http://svc/item/7" := by
  have h := resolve_spec ⟨"http://svc/item/$id", false, []⟩ (fun _ => true)
    (fun _ _ _ => DoResult.ok ⟨200, Except.ok "\x7b\x7d"⟩)
    (fun _ _ _ => DoResult.ok ⟨200, Except.ok "\x7b\x7d"⟩) ⟨"7"⟩
  exact ⟨(h.2.1 "\x7b\x7d").mpr ⟨rfl, rfl⟩, by decide⟩

end GraphJin
